import Mathlib

/-!
Shallow embedding of the column-mapping merge engine of
`merge_processor.py` and `indeed_config.py`.

Tables are modelled as an ordered list of column names together with an
ordered list of rows; a cell is empty (pandas NaN), a string, or a number.
The pandas operations used by the source (`pd.merge` with `how='left'`,
column assignment on a DataFrame, `pd.to_numeric(errors='coerce')`,
`fillna`) are modelled explicitly, including the empty-frame behaviour of
column assignment: assigning a list-like value to a frame whose index is
empty re-indexes the frame to the value's index and back-fills the
already-present columns with NaN (pandas `DataFrame._ensure_valid_index`).
-/

set_option maxRecDepth 16384

inductive Value where
  | empty : Value
  | str (s : String) : Value
  | num (q : Rat) : Value
deriving DecidableEq

structure DataFrame where
  cols : List String
  rows : List (List Value)
deriving DecidableEq

/-- Python `str.strip()`: drop leading and trailing whitespace. -/
def pyStrip (cs : List Char) : List Char :=
  ((cs.dropWhile Char.isWhitespace).reverse.dropWhile Char.isWhitespace).reverse

/-- Label canonicalisation used by `normalize_column_names` and
`find_column_fuzzy` (`label.lower().strip().replace(' ', '_')`):
lowercase, strip leading/trailing whitespace, then replace every space
character with an underscore. -/
def normalizeLabel (s : String) : String :=
  String.mk ((pyStrip (s.data.map Char.toLower)).map (fun c => if c = ' ' then '_' else c))

/-- Key preprocessing `key.lower().replace(' ', '_')` applied to the
configured join keys and mapping sources before fuzzy lookup (no strip). -/
def preKey (s : String) : String :=
  String.mk ((s.data.map Char.toLower).map (fun c => if c = ' ' then '_' else c))

/-- Python truthiness of the `Optional[str]` results of
`find_column_fuzzy`: `None` and the empty string are falsy. -/
def truthy : Option String → Bool
  | none => false
  | some s => !s.data.isEmpty

/-- Embedding of `normalize_column_names`: rename every column of the
frame with `normalizeLabel`; the data is unchanged. -/
def normalize_column_names (df : DataFrame) : DataFrame :=
  ⟨df.cols.map normalizeLabel, df.rows⟩

/-- Embedding of `find_column_fuzzy`: first column whose normalised name
equals the normalised target. -/
def find_column_fuzzy (df : DataFrame) (target : String) : Option String :=
  df.cols.find? (fun c => normalizeLabel c == normalizeLabel target)

/-- Cell of a row at the position of column `c` (empty when `c` is not a
column or the row is too short). -/
def DataFrame.keyAt (df : DataFrame) (c : String) (row : List Value) : Value :=
  match df.cols.findIdx? (fun x => x == c) with
  | some j => row.getD j Value.empty
  | none => Value.empty

/-- Column read `df[c]`, as the list of the column's cells. -/
def DataFrame.getCol (df : DataFrame) (c : String) : List Value :=
  match df.cols.findIdx? (fun x => x == c) with
  | some j => df.rows.map (fun r => r.getD j Value.empty)
  | none => []

/-- Column write `df[c] = vs` with `vs` already aligned to the frame's
index: overwrite the column in place when it exists, otherwise append it
on the right. -/
def DataFrame.setColValues (df : DataFrame) (c : String) (vs : List Value) : DataFrame :=
  match df.cols.findIdx? (fun x => x == c) with
  | some j => ⟨df.cols, (df.rows.zip vs).map (fun p => p.1.set j p.2)⟩
  | none => ⟨df.cols ++ [c], (df.rows.zip vs).map (fun p => p.1 ++ [p.2])⟩

/-- Column write `df[c] = scalar`: the scalar is broadcast over the
frame's current index (over zero rows on an empty frame). -/
def DataFrame.setColScalar (df : DataFrame) (c : String) (v : Value) : DataFrame :=
  df.setColValues c (df.rows.map (fun _ => v))

/-- Column write `df[c] = series`.  When the frame's index is empty and
the series is not, pandas re-indexes the frame to the series' index and
back-fills every existing column with NaN (`_ensure_valid_index`,
GH5632); otherwise the series is aligned to the frame's index (here:
positionally, padding with NaN). -/
def DataFrame.setColSeries (df : DataFrame) (c : String) (xs : List Value) : DataFrame :=
  if df.rows.isEmpty && !xs.isEmpty then
    let newCols := if df.cols.contains c then df.cols else df.cols ++ [c]
    ⟨newCols, xs.map (fun v => newCols.map (fun c2 => if c2 == c then v else Value.empty))⟩
  else
    df.setColValues c ((List.range df.rows.length).map (fun i => xs.getD i Value.empty))

/-- Join-key value comparison in `pd.merge`: exact equality of cell
values.  Pandas factorises the key columns jointly and remaps every NA
code into one shared group (`_factorize_keys`, the
`np.putmask(llab/rlab, mask, count)` step), so NaN keys do join NaN
keys; the model's `empty` cell therefore matches `empty`. -/
def keyMatches (lv rv : Value) : Bool :=
  lv == rv

def eraseIdxO (j : Option Nat) (l : List α) : List α :=
  match j with
  | some i => l.eraseIdx i
  | none => l

/-- Embedding of `pd.merge(left, right, left_on=lc, right_on=rc,
how='left', suffixes=(sl, sr))`.

When the two key column names are equal, pandas keeps a single key
column (dropping the right one, or the left one when the left frame has
no rows).  Column names occurring on both sides after that drop are
suffixed with `sl` on the left and `sr` on the right (an empty suffix
leaves the name unchanged).  Every left row appears in left order; a row
with matching right rows fans out into one row per match in right order,
and a row without matches is padded with NaN on the right.

The embedding is split into `leftColsAfterDrop`, `rightColsAfterDrop`,
`mergeRows` and `leftMerge` below.

Left-side column list after the equal-key-name drop: when the key
names coincide and the left frame has no rows, pandas drops the left key
column instead of the right one. -/
def leftColsAfterDrop (left : DataFrame) (lc rc : String) : List String :=
  if lc == rc && left.rows.isEmpty then
    eraseIdxO (left.cols.findIdx? (fun x => x == lc)) left.cols
  else left.cols

/-- Right-side column list after the equal-key-name drop. -/
def rightColsAfterDrop (right : DataFrame) (rc : String) (dropR : Bool) : List String :=
  if dropR then eraseIdxO (right.cols.findIdx? (fun x => x == rc)) right.cols
  else right.cols

/-- Row block of the left join: each left row in order, fanned out over
its matching right rows (right order), or padded with NaN on the right
when no right row matches. -/
def matchesOf (left right : DataFrame) (lc rc : String) (lrow : List Value) : List (List Value) :=
  right.rows.filter (fun rrow => keyMatches (left.keyAt lc lrow) (right.keyAt rc rrow))

def mergeRows (left right : DataFrame) (lc rc : String) (dropR : Bool) : List (List Value) :=
  left.rows.flatMap (fun lrow =>
    if (matchesOf left right lc rc lrow).isEmpty then
      [lrow ++ (rightColsAfterDrop right rc dropR).map (fun _ => Value.empty)]
    else (matchesOf left right lc rc lrow).map (fun rrow =>
      lrow ++ (if dropR then eraseIdxO (right.cols.findIdx? (fun x => x == rc)) rrow else rrow)))

def leftMerge (left right : DataFrame) (lc rc : String) (sl sr : String) : DataFrame :=
  let dropR := lc == rc && !left.rows.isEmpty
  let lCols := leftColsAfterDrop left lc rc
  let rCols := rightColsAfterDrop right rc dropR
  ⟨lCols.map (fun c => if rCols.contains c then c ++ sl else c) ++
    rCols.map (fun c => if lCols.contains c then c ++ sr else c),
   mergeRows left right lc rc dropR⟩

/-- Number of rows of `S` whose key cell (column `rc`) matches the key
value `lk`; the per-row fan-out of a left join. -/
def matchCount (S : DataFrame) (rc : String) (lk : Value) : Nat :=
  (S.rows.filter (fun rrow => keyMatches lk (S.keyAt rc rrow))).length

def digitsToNat (cs : List Char) : Nat :=
  cs.foldl (fun acc c => acc * 10 + (c.toNat - 48)) 0

def allDigits (cs : List Char) : Bool :=
  cs.all (fun c => c.isDigit)

/-- Addition of exact rationals, expressed through `mkRat` (the
normalising constructor) so that it evaluates by kernel reduction. -/
def ratAdd (a b : Rat) : Rat :=
  mkRat (a.num * (b.den : Int) + b.num * (a.den : Int)) (a.den * b.den)

def ratNeg (a : Rat) : Rat :=
  mkRat (-a.num) a.den

/-- Decimal part of the numeric parser behind
`pd.to_numeric(errors='coerce')`: digits with an optional single decimal
point, at least one digit overall. -/
def parseUnsigned (cs : List Char) : Option Rat :=
  let ip := cs.takeWhile (fun c => c != '.')
  match cs.dropWhile (fun c => c != '.') with
  | [] =>
    if !ip.isEmpty && allDigits ip then some (mkRat (digitsToNat ip) 1) else none
  | _ :: frac =>
    if allDigits ip && allDigits frac && (!ip.isEmpty || !frac.isEmpty) then
      some (mkRat (digitsToNat ip * 10 ^ frac.length + digitsToNat frac) (10 ^ frac.length))
    else none

/-- String-to-number coercion of `pd.to_numeric(errors='coerce')`:
surrounding whitespace and an optional sign are accepted; anything else
non-numeric yields NaN (`none`). -/
def parseRat (s : String) : Option Rat :=
  match pyStrip s.data with
  | [] => none
  | '-' :: rest => (parseUnsigned rest).map ratNeg
  | '+' :: rest => parseUnsigned rest
  | cs => parseUnsigned cs

/-- Value of a cell under `pd.to_numeric(errors='coerce').fillna(0)`:
numbers pass through, numeric strings are parsed, everything else
(including NaN and non-numeric text) becomes zero. -/
def toNumOrZero : Value → Rat
  | Value.num q => q
  | Value.str s => (parseRat s).getD 0
  | Value.empty => 0

def valAsNum : Value → Rat
  | Value.num q => q
  | _ => 0

/-- Cellwise `+=` of a numeric column onto the (numeric) accumulator
column of a `sum_columns` formula. -/
def addNumVal (a b : Value) : Value :=
  Value.num (ratAdd (valAsNum a) (valAsNum b))

/-! ## Mapping configuration (`indeed_config.py`) -/

inductive ColMapping where
  | static (value : Value)
  | direct (source : String) (column : String)
  | formulaSum (columns : List String)
deriving DecidableEq

structure IndeedConfig where
  column_mapping : List (String × ColMapping)
  join_xtm_tos : Option (String × String)
  join_xtm_edit : Option (String × String)
  required_xtm_columns : List String
  required_tos_columns : List String
  required_edit_columns : List String
deriving DecidableEq

/-- The `Indeed_Standard` profile of `get_indeed_merge_config`, verbatim
from `indeed_config.py` (the `column_mapping` dict in insertion order,
the two join-key pairs, and the validation lists). -/
def indeedStandard : IndeedConfig where
  column_mapping :=
    [ ("A_Status", ColMapping.static (Value.str "Translated")),
      ("B_Project_ID", ColMapping.direct "XTM" "Project ID"),
      ("C_Project_Name", ColMapping.direct "XTM" "Project name"),
      ("D_Creation_Date", ColMapping.direct "XTM" "Creation date"),
      ("E_Due_Date", ColMapping.direct "XTM" "Due date"),
      ("F_Department", ColMapping.direct "XTM" "Department_Indeed"),
      ("G_Team", ColMapping.direct "XTM" "Team_Indeed"),
      ("H_Source_Language", ColMapping.direct "XTM" "Source language"),
      ("I_Target_Language", ColMapping.direct "XTM" "Target language"),
      ("J_Service_Type", ColMapping.direct "TOS" "service_type"),
      ("K_Requested_By", ColMapping.direct "TOS" "requested_by"),
      ("L_Tags", ColMapping.direct "TOS" "tags"),
      ("M_No_Match", ColMapping.direct "EDIT" "No match (after MTPE discount)"),
      ("N_50_74_Match", ColMapping.direct "EDIT" "50%-74%"),
      ("O_75_84_Match", ColMapping.direct "EDIT" "75%-84%"),
      ("P_85_94_Match", ColMapping.direct "EDIT" "85%-94%"),
      ("Q_Total_Words", ColMapping.formulaSum
        ["M_No_Match", "N_50_74_Match", "O_75_84_Match", "P_85_94_Match"]),
      ("R_95_99_Match", ColMapping.direct "EDIT" "95%-99%"),
      ("S_100_Match", ColMapping.direct "EDIT" "100%"),
      ("T_Repetitions", ColMapping.direct "EDIT" "Repetitions"),
      ("U_Field", ColMapping.static (Value.str "")),
      ("V_Field", ColMapping.static (Value.str "")),
      ("W_Field", ColMapping.static (Value.str "")),
      ("X_Field", ColMapping.static (Value.str "")),
      ("Y_Field", ColMapping.static (Value.str "")),
      ("Z_Field", ColMapping.static (Value.str "")),
      ("AA_Field", ColMapping.static (Value.str "")),
      ("AB_Field", ColMapping.static (Value.str "")),
      ("AC_Field", ColMapping.static (Value.str "")),
      ("AD_Field", ColMapping.static (Value.str "")),
      ("AE_Field", ColMapping.static (Value.str "")),
      ("AF_Field", ColMapping.static (Value.str "")),
      ("AG_Field", ColMapping.static (Value.str "")) ]
  join_xtm_tos := some ("Project ID", "order_id")
  join_xtm_edit := some ("Project ID", "Project ID")
  required_xtm_columns := ["Project ID", "Project name", "Department_Indeed", "Team_Indeed"]
  required_tos_columns := ["order_id", "service_type", "requested_by"]
  required_edit_columns := ["No match (after MTPE discount)"]

/-- Embedding of `get_indeed_merge_config`: the configuration dict keyed
by profile name; indexing an unknown profile fails (`KeyError`). -/
def get_indeed_merge_config (profile : String) : Option IndeedConfig :=
  if profile = "Indeed_Standard" then some indeedStandard else none

/-- Embedding of `get_indeed_column_names`: the 33 output column names
in order. -/
def get_indeed_column_names : List String :=
  [ "A_Status", "B_Project_ID", "C_Project_Name", "D_Creation_Date",
    "E_Due_Date", "F_Department", "G_Team", "H_Source_Language",
    "I_Target_Language", "J_Service_Type", "K_Requested_By", "L_Tags",
    "M_No_Match", "N_50_74_Match", "O_75_84_Match", "P_85_94_Match",
    "Q_Total_Words", "R_95_99_Match", "S_100_Match", "T_Repetitions",
    "U_Field", "V_Field", "W_Field", "X_Field", "Y_Field", "Z_Field",
    "AA_Field", "AB_Field", "AC_Field", "AD_Field", "AE_Field",
    "AF_Field", "AG_Field" ]

/-! ## The merge pipeline (`merge_indeed_files`) -/

/-- One `+=` iteration of the `sum_columns` formula loop: when the
referenced output column exists, coerce it to numbers (non-numeric as 0)
and add it cellwise onto the accumulator column `c`. -/
def sumStep (acc : DataFrame) (c : String) (r : String) : DataFrame :=
  if acc.cols.contains r then
    acc.setColSeries c
      (List.zipWith addNumVal (acc.getCol c) ((acc.getCol r).map (fun v => Value.num (toNumOrZero v))))
  else acc

/-- One iteration of the Step-3 column-mapping loop of
`merge_indeed_files`: static values broadcast, direct references resolve
fuzzily against the merged frame (empty values when unresolved), and
`sum_columns` formulas start from 0 and `+=` each referenced column. -/
def applyMapping (merged : DataFrame) (acc : DataFrame) (cm : String × ColMapping) : DataFrame :=
  match cm.2 with
  | ColMapping.static v => acc.setColScalar cm.1 v
  | ColMapping.direct _ col =>
    let actual := find_column_fuzzy merged (preKey col)
    if truthy actual then acc.setColSeries cm.1 (merged.getCol (actual.getD ""))
    else acc.setColScalar cm.1 (Value.str "")
  | ColMapping.formulaSum refs =>
    refs.foldl (fun a r => sumStep a cm.1 r) (acc.setColScalar cm.1 (Value.num 0))

/-- Step 4 first half: add an all-empty-string column for every expected
output column that the mapping loop did not produce. -/
def backfillColumns (names : List String) (df : DataFrame) : DataFrame :=
  names.foldl (fun acc c => if acc.cols.contains c then acc else acc.setColScalar c (Value.str "")) df

/-- Step 4 second half, `result_df[final_columns]`: project the frame
onto the given columns in the given order. -/
def selectColumns (df : DataFrame) (names : List String) : DataFrame :=
  ⟨names, df.rows.map (fun row => names.map (fun c => df.keyAt c row))⟩

/-- Step 5, `result_df.fillna("")`: every NaN cell becomes the empty
string. -/
def fillEmpty (df : DataFrame) : DataFrame :=
  ⟨df.cols, df.rows.map (fun row => row.map (fun v => if v == Value.empty then Value.str "" else v))⟩

/-- Steps 3 to 5 of `merge_indeed_files`: build the output columns from
the merged frame, backfill the missing expected columns, reorder to the
33-column schema and replace NaN by empty strings. -/
def projectOutput (mapping : List (String × ColMapping)) (merged : DataFrame) : DataFrame :=
  fillEmpty (selectColumns
    (backfillColumns get_indeed_column_names (mapping.foldl (applyMapping merged) ⟨[], []⟩))
    get_indeed_column_names)

/-- Step 1 of `merge_indeed_files`: left-join the normalised XTM frame
with the normalised TOS frame when both join keys resolve (to truthy
names); otherwise keep the XTM frame unchanged. -/
def step1 (config : IndeedConfig) (xtmN tosN : DataFrame) : DataFrame :=
  match config.join_xtm_tos with
  | none => xtmN
  | some (xk, tk) =>
    let xc := find_column_fuzzy xtmN (preKey xk)
    let tc := find_column_fuzzy tosN (preKey tk)
    if truthy xc && truthy tc then
      leftMerge xtmN tosN (xc.getD "") (tc.getD "") "_xtm" "_tos"
    else xtmN

/-- Step 2 of `merge_indeed_files`: left-join the accumulated frame with
the normalised Edit Distance frame when both join keys resolve;
otherwise keep the accumulated frame unchanged. -/
def step2 (config : IndeedConfig) (acc editN : DataFrame) : DataFrame :=
  match config.join_xtm_edit with
  | none => acc
  | some (xk, ek) =>
    let xc := find_column_fuzzy acc (preKey xk)
    let ec := find_column_fuzzy editN (preKey ek)
    if truthy xc && truthy ec then
      leftMerge acc editN (xc.getD "") (ec.getD "") "" "_edit"
    else acc

/-- The joined intermediate table of `merge_indeed_files` (Steps 1-2):
normalise all column names, then attach TOS and Edit Distance. -/
def mergedTable (config : IndeedConfig) (xtm tos edit : DataFrame) : DataFrame :=
  step2 config
    (step1 config (normalize_column_names xtm) (normalize_column_names tos))
    (normalize_column_names edit)

/-- The whole merge for one configuration profile. -/
def mergeWithConfig (config : IndeedConfig) (xtm tos edit : DataFrame) : DataFrame :=
  projectOutput config.column_mapping (mergedTable config xtm tos edit)

/-- Embedding of `merge_indeed_files`: look up the profile and run the
pipeline (`none` models the `KeyError` on an unknown profile). -/
def merge_indeed_files (xtm tos edit : DataFrame) (client_profile : String) : Option DataFrame :=
  (get_indeed_merge_config client_profile).map (fun c => mergeWithConfig c xtm tos edit)

/-! ## Validation (`validate_indeed_files`) -/

/-- Pandas `DataFrame.empty`: true when either axis has length zero. -/
def dfEmpty (df : DataFrame) : Bool :=
  df.rows.isEmpty || df.cols.isEmpty

def xtmMissingWarning (col : String) : String :=
  "XTM file may be missing expected column: \x27" ++ col ++ "\x27 (will use empty values)"

def tosMissingWarning (col : String) : String :=
  "TOS file may be missing expected column: \x27" ++ col ++ "\x27 (will use empty values)"

def editMissingWarning (col : String) : String :=
  "Edit Distance file may be missing expected column: \x27" ++ col ++ "\x27 (will use empty values)"

def rowMismatchTosWarning (nx nt : Nat) : String :=
  "Row count mismatch: XTM has " ++ toString nx ++ " rows, TOS has " ++ toString nt ++ " rows"

def rowMismatchEditWarning (nx ne : Nat) : String :=
  "Row count mismatch: XTM has " ++ toString nx ++ " rows, Edit Distance has " ++ toString ne ++ " rows"

def xtmAlignWarning (key : String) : String :=
  "XTM join key \x27" ++ key ++ "\x27 not found - rows may not align properly"

def tosAlignWarning (key : String) : String :=
  "TOS join key \x27" ++ key ++ "\x27 not found - rows may not align properly"

/-- Missing-required-column warnings of one source, in list order. -/
def requiredWarnings (required : List String) (dfN : DataFrame) (mk : String → String) : List String :=
  (required.filter (fun col => !truthy (find_column_fuzzy dfN (preKey col)))).map mk

/-- Empty-table warnings of `validate_indeed_files` (on the raw frames). -/
def emptyWarnings (xtm tos edit : DataFrame) : List String :=
  (if dfEmpty xtm then ["XTM file appears to be empty"] else []) ++
  (if dfEmpty tos then ["TOS file appears to be empty"] else []) ++
  (if dfEmpty edit then ["Edit Distance file appears to be empty"] else [])

/-- Row-count mismatch warnings of `validate_indeed_files`. -/
def rowCountWarnings (xtm tos edit : DataFrame) : List String :=
  (if xtm.rows.length ≠ tos.rows.length
    then [rowMismatchTosWarning xtm.rows.length tos.rows.length] else []) ++
  (if xtm.rows.length ≠ edit.rows.length
    then [rowMismatchEditWarning xtm.rows.length edit.rows.length] else [])

/-- Join-key warnings: only the `xtm_tos` pair is inspected by the code;
the `xtm_edit` pair is never checked. -/
def joinKeyWarnings (config : IndeedConfig) (xtmN tosN : DataFrame) : List String :=
  match config.join_xtm_tos with
  | some (xk, tk) =>
    (if !truthy (find_column_fuzzy xtmN (preKey xk)) then [xtmAlignWarning xk] else []) ++
    (if !truthy (find_column_fuzzy tosN (preKey tk)) then [tosAlignWarning tk] else [])
  | none => []

def validateWithConfig (config : IndeedConfig) (xtm tos edit : DataFrame) : List String :=
  requiredWarnings config.required_xtm_columns (normalize_column_names xtm) xtmMissingWarning ++
  requiredWarnings config.required_tos_columns (normalize_column_names tos) tosMissingWarning ++
  requiredWarnings config.required_edit_columns (normalize_column_names edit) editMissingWarning ++
  emptyWarnings xtm tos edit ++
  rowCountWarnings xtm tos edit ++
  joinKeyWarnings config (normalize_column_names xtm) (normalize_column_names tos)

/-- Embedding of `validate_indeed_files`: it takes no profile argument
and always reads the built-in `Indeed_Standard` configuration. -/
def validate_indeed_files (xtm tos edit : DataFrame) : List String :=
  match get_indeed_merge_config "Indeed_Standard" with
  | some config => validateWithConfig config xtm tos edit
  | none => []

/-! ## Theorems -/

theorem fillEmpty_selectColumns_shape (df : DataFrame) (names : List String) :
    ∀ row ∈ (fillEmpty (selectColumns df names)).rows, row.length = names.length := by
  intro row hr
  simp only [fillEmpty, selectColumns, List.map_map, List.mem_map] at hr
  obtain ⟨r0, -, rfl⟩ := hr
  simp

/-- C1.  For every triple of input tables and any profile accepted by the
configuration lookup, the table returned by `merge_indeed_files` has
exactly the 33 configured output column names of
`get_indeed_column_names`, in that order, and every row has exactly 33
cells: absent or unresolved sources degrade to empty values, never to a
narrower or wider table. -/
theorem spec2_C1 (xtm tos edit : DataFrame) (profile : String) (out : DataFrame)
    (h : merge_indeed_files xtm tos edit profile = some out) :
    out.cols = get_indeed_column_names ∧ get_indeed_column_names.length = 33 ∧
      ∀ row ∈ out.rows, row.length = 33 := by
  unfold merge_indeed_files get_indeed_merge_config at h
  by_cases hp : profile = "Indeed_Standard"
  · simp only [hp, if_pos, Option.map_some', Option.some.injEq] at h
    subst h
    refine ⟨rfl, rfl, ?_⟩
    intro row hr
    exact fillEmpty_selectColumns_shape _ get_indeed_column_names row hr
  · simp [hp] at h

theorem spec2_C1_witness :
    merge_indeed_files ⟨[], []⟩ ⟨[], []⟩ ⟨[], []⟩ "Indeed_Standard"
      = some (mergeWithConfig indeedStandard ⟨[], []⟩ ⟨[], []⟩ ⟨[], []⟩) ∧
    (mergeWithConfig indeedStandard ⟨[], []⟩ ⟨[], []⟩ ⟨[], []⟩).cols = get_indeed_column_names :=
  ⟨rfl, (spec2_C1 ⟨[], []⟩ ⟨[], []⟩ ⟨[], []⟩ "Indeed_Standard" _ rfl).1⟩

/-- C3.  The claim says every static column holds its configured value in
every output row regardless of its position among the direct columns; the
config sets `A_Status` to `"Translated"`.  The code contradicts this: on
a one-row XTM table whose `Project ID` resolves, the `A_Status` constant
is assigned while the result frame still has an empty index, and the
first resolved direct column re-indexes the frame and back-fills
`A_Status` with NaN, which `fillna` then turns into the empty string, so
every output row carries `""` instead of `"Translated"`. -/
theorem spec2_C3 :
    (merge_indeed_files ⟨["Project ID"], [[Value.str "P1"]]⟩ ⟨[], []⟩ ⟨[], []⟩
        "Indeed_Standard").map (fun d => d.getCol "A_Status") = some [Value.str ""] ∧
    (merge_indeed_files ⟨["Project ID"], [[Value.str "P1"]]⟩ ⟨[], []⟩ ⟨[], []⟩
        "Indeed_Standard").map (fun d => d.getCol "B_Project_ID") = some [Value.str "P1"] := by
  constructor <;> rfl

/-- C5.  On the normal path the `sum_columns` formula is the claimed sum:
with M=2, N=3, O="x" (non-numeric, parsed as 0) and P unresolved (empty,
parsed as 0), `Q_Total_Words` is the number 5.  But the universal claim
fails on the code: when no direct column at or before the formula column
resolves and a later one does (here only `95%-99%` is present, reaching
the output through the accumulated XTM frame), the frame's index is
established after `Q_Total_Words` was built, the formula column is
back-filled with NaN and ends up the empty string instead of the numeric
sum 0. -/
theorem spec2_C5 :
    (merge_indeed_files ⟨["Project ID"], [[Value.str "P1"]]⟩ ⟨[], []⟩
        ⟨["Project ID", "No match (after MTPE discount)", "50%-74%", "75%-84%"],
         [[Value.str "P1", Value.num 2, Value.num 3, Value.str "x"]]⟩
        "Indeed_Standard").map (fun d => d.getCol "Q_Total_Words") = some [Value.num 5] ∧
    (merge_indeed_files ⟨["95%-99%"], [[Value.num 7]]⟩ ⟨[], []⟩ ⟨[], []⟩
        "Indeed_Standard").map (fun d => d.getCol "Q_Total_Words") = some [Value.str ""] ∧
    (merge_indeed_files ⟨["95%-99%"], [[Value.num 7]]⟩ ⟨[], []⟩ ⟨[], []⟩
        "Indeed_Standard").map (fun d => d.getCol "R_95_99_Match") = some [Value.num 7] := by
  refine ⟨?_, ?_, ?_⟩ <;> rfl

/-- C6, counterexample.  Resolution is not whitespace-run-insensitive: the
normaliser replaces each space by its own underscore, so the column
`" PROJECT  ID "` (two internal spaces) normalises to `"project__id"`
and the target `"Project ID"` (one space, `"project_id"`) does not
resolve against it. -/
theorem spec2_C6_counterexample :
    find_column_fuzzy ⟨[" PROJECT  ID "], []⟩ "Project ID" = none ∧
    normalizeLabel " PROJECT  ID " = "project__id" := by
  constructor <;> rfl

/-- C8, counterexample.  The validator never inspects the `xtm_edit`
join-key pair: on inputs satisfying every other check, with the Edit
Distance table lacking the `Project ID` join key, the returned warning
list is empty — it contains no warning that rows may not align. -/
theorem spec2_C8_counterexample :
    validate_indeed_files
        ⟨["Project ID", "Project name", "Department_Indeed", "Team_Indeed"],
         [[Value.str "P1", Value.str "A", Value.str "D", Value.str "T"]]⟩
        ⟨["order_id", "service_type", "requested_by"],
         [[Value.str "P1", Value.str "Rev", Value.str "Bo"]]⟩
        ⟨["No match (after MTPE discount)"], [[Value.num 1]]⟩ = [] ∧
    find_column_fuzzy
        (normalize_column_names ⟨["No match (after MTPE discount)"], [[Value.num 1]]⟩)
        (preKey "Project ID") = none := by
  constructor <;> rfl

/-- C9, counterexample.  In the second (edit-distance) join the suffix
pair is `('', '_edit')`: when the accumulated table and the Edit
Distance table share the non-key column `foo`, the accumulated side
keeps the unsuffixed name `foo` — it is not renamed with a
distinguishing source tag; only the secondary side becomes `foo_edit`. -/
theorem spec2_C9_counterexample :
    (step1 indeedStandard
        (normalize_column_names ⟨["Project ID", "foo"], [[Value.str "P1", Value.str "L"]]⟩)
        (normalize_column_names ⟨["order_id"], [[Value.str "P1"]]⟩)).cols
      = ["project_id", "foo", "order_id"] ∧
    (normalize_column_names ⟨["Project ID", "foo"], [[Value.str "P1", Value.str "R"]]⟩).cols
      = ["project_id", "foo"] ∧
    (mergedTable indeedStandard
        ⟨["Project ID", "foo"], [[Value.str "P1", Value.str "L"]]⟩
        ⟨["order_id"], [[Value.str "P1"]]⟩
        ⟨["Project ID", "foo"], [[Value.str "P1", Value.str "R"]]⟩).cols
      = ["project_id", "foo", "order_id", "foo_edit"] := by
  refine ⟨?_, ?_, ?_⟩ <;> rfl

/-- C10.  `validate_indeed_files` takes only the three tables: its result
always equals the parameterised validator applied to the built-in
`Indeed_Standard` configuration, whose required-column lists and join-key
pairs are the ones checked, independently of whatever `client_profile`
a caller passes to `merge_indeed_files`. -/
theorem spec2_C10 :
    (∀ xtm tos edit : DataFrame,
      validate_indeed_files xtm tos edit = validateWithConfig indeedStandard xtm tos edit) ∧
    indeedStandard.required_xtm_columns
      = ["Project ID", "Project name", "Department_Indeed", "Team_Indeed"] ∧
    indeedStandard.required_tos_columns = ["order_id", "service_type", "requested_by"] ∧
    indeedStandard.required_edit_columns = ["No match (after MTPE discount)"] ∧
    indeedStandard.join_xtm_tos = some ("Project ID", "order_id") ∧
    indeedStandard.join_xtm_edit = some ("Project ID", "Project ID") :=
  ⟨fun _ _ _ => rfl, rfl, rfl, rfl, rfl, rfl⟩

theorem length_le_sum_of_one_le (l : List Nat) (h : ∀ x ∈ l, 1 ≤ x) : l.length ≤ l.sum := by
  induction l with
  | nil => simp
  | cons a t ih =>
    have ha := h a (by simp)
    have ht := ih (fun x hx => h x (by simp [hx]))
    simp only [List.length_cons, List.sum_cons]
    omega

theorem flatMap_eq_map_of_forall (l : List α) (f : α → List β) (g : α → β)
    (h : ∀ a ∈ l, f a = [g a]) : l.flatMap f = l.map g := by
  induction l with
  | nil => rfl
  | cons a t ih =>
    rw [List.flatMap_cons, h a (by simp), List.map_cons,
      ih (fun x hx => h x (by simp [hx]))]
    rfl

theorem matchCount_matchesOf (left right : DataFrame) (lc rc : String) (lrow : List Value) :
    matchCount right rc (left.keyAt lc lrow) = (matchesOf left right lc rc lrow).length := rfl

theorem length_mergeRows (left right : DataFrame) (lc rc : String) (dropR : Bool) :
    (mergeRows left right lc rc dropR).length
      = (left.rows.map (fun lrow => max (matchCount right rc (left.keyAt lc lrow)) 1)).sum := by
  unfold mergeRows
  rw [List.flatMap_def, List.length_flatten, List.map_map]
  congr 1
  apply List.map_congr_left
  intro lrow _
  simp only [Function.comp_apply]
  by_cases hms : (matchesOf left right lc rc lrow).isEmpty
  · rw [if_pos hms, matchCount_matchesOf, List.isEmpty_iff.mp hms]
    rfl
  · rw [if_neg hms, List.length_map, matchCount_matchesOf]
    have hpos : 0 < (matchesOf left right lc rc lrow).length :=
      List.length_pos.mpr (by simpa [List.isEmpty_iff] using hms)
    exact (Nat.max_eq_left hpos).symm

theorem step1_eq (cfg : IndeedConfig) (xN tN : DataFrame) (xk tk : String)
    (hjoin : cfg.join_xtm_tos = some (xk, tk)) :
    step1 cfg xN tN =
      (if truthy (find_column_fuzzy xN (preKey xk)) && truthy (find_column_fuzzy tN (preKey tk)) then
        leftMerge xN tN ((find_column_fuzzy xN (preKey xk)).getD "")
          ((find_column_fuzzy tN (preKey tk)).getD "") "_xtm" "_tos"
      else xN) := by
  unfold step1
  rw [hjoin]

theorem data_isEmpty_false_of_ne (s : String) (h : s ≠ "") : s.data.isEmpty = false := by
  obtain ⟨l⟩ := s
  cases l with
  | nil => exact absurd rfl h
  | cons a t => rfl

/-- C2.  Whenever both key columns of a join spec resolve,
`merge_indeed_files` performs the left outer join `leftMerge` (last
conjunct: `step1` reduces to `leftMerge` when both keys resolve to
nonempty names, which is the only possible resolution for the standard
configuration).  `leftMerge` preserves the primary table: the joined row
count is the sum over primary rows of `max(matches, 1)` — at least the
primary row count, with a k-match row fanning out into exactly k result
rows.  When no key matches at all the result is exactly one row per
primary row, padded with empty values in every secondary column (also
in the equal-key-name case, where the secondary key column is dropped);
per row, a matchless primary row appears padded with empty secondary
values, and each of a primary row's matches contributes a joined row. -/
theorem spec2_C2 (P S : DataFrame) (lc rc sl sr : String) :
    ((leftMerge P S lc rc sl sr).rows.length
        = (P.rows.map (fun lrow => max (matchCount S rc (P.keyAt lc lrow)) 1)).sum)
    ∧ P.rows.length ≤ (leftMerge P S lc rc sl sr).rows.length
    ∧ ((∀ lrow ∈ P.rows, matchCount S rc (P.keyAt lc lrow) = 0) →
        (leftMerge P S lc rc sl sr).rows
          = P.rows.map (fun lrow => lrow ++
              (rightColsAfterDrop S rc ((lc == rc) && !P.rows.isEmpty)).map
                (fun _ => Value.empty)))
    ∧ (∀ lrow ∈ P.rows, matchCount S rc (P.keyAt lc lrow) = 0 →
        (lrow ++ (rightColsAfterDrop S rc ((lc == rc) && !P.rows.isEmpty)).map
            (fun _ => Value.empty))
          ∈ (leftMerge P S lc rc sl sr).rows)
    ∧ (∀ lrow ∈ P.rows, ∀ rrow ∈ matchesOf P S lc rc lrow,
        (lrow ++ (if (lc == rc) && !P.rows.isEmpty
            then eraseIdxO (S.cols.findIdx? (fun x => x == rc)) rrow else rrow))
          ∈ (leftMerge P S lc rc sl sr).rows)
    ∧ (∀ (cfg : IndeedConfig) (xN tN : DataFrame) (xk tk xc tc : String),
        cfg.join_xtm_tos = some (xk, tk) →
        find_column_fuzzy xN (preKey xk) = some xc → xc ≠ "" →
        find_column_fuzzy tN (preKey tk) = some tc → tc ≠ "" →
        step1 cfg xN tN = leftMerge xN tN xc tc "_xtm" "_tos") := by
  have hrows : (leftMerge P S lc rc sl sr).rows
      = mergeRows P S lc rc ((lc == rc) && !P.rows.isEmpty) := rfl
  have hlen := length_mergeRows P S lc rc ((lc == rc) && !P.rows.isEmpty)
  refine ⟨hrows ▸ hlen, ?_, ?_, ?_, ?_, ?_⟩
  · rw [hrows, hlen]
    have hone : ∀ x ∈ P.rows.map (fun lrow => max (matchCount S rc (P.keyAt lc lrow)) 1),
        1 ≤ x := by
      intro x hx
      obtain ⟨r, -, rfl⟩ := List.mem_map.mp hx
      omega
    have := length_le_sum_of_one_le _ hone
    simpa using this
  · intro hall
    rw [hrows]
    unfold mergeRows
    apply flatMap_eq_map_of_forall
    intro lrow hl
    have hcnt := hall lrow hl
    rw [matchCount_matchesOf, List.length_eq_zero] at hcnt
    rw [if_pos (by rw [hcnt]; rfl)]
  · intro lrow hl hcnt
    rw [hrows]
    unfold mergeRows
    refine List.mem_flatMap.mpr ⟨lrow, hl, ?_⟩
    rw [matchCount_matchesOf, List.length_eq_zero] at hcnt
    rw [if_pos (by rw [hcnt]; rfl)]
    exact List.mem_singleton.mpr rfl
  · intro lrow hl rrow hr
    rw [hrows]
    unfold mergeRows
    refine List.mem_flatMap.mpr ⟨lrow, hl, ?_⟩
    have hne : (matchesOf P S lc rc lrow).isEmpty = false := by
      rw [List.isEmpty_eq_false]
      intro he
      rw [he] at hr
      cases hr
    rw [hne]
    simp only [Bool.false_eq_true, if_false]
    exact List.mem_map.mpr ⟨rrow, hr, rfl⟩
  · intro cfg xN tN xk tk xc tc hjoin hxc hxcne htc htcne
    rw [step1_eq cfg xN tN xk tk hjoin, hxc, htc]
    simp [truthy, data_isEmpty_false_of_ne xc hxcne, data_isEmpty_false_of_ne tc htcne]

theorem spec2_C2_witness :
    (leftMerge ⟨["k"], [[Value.str "a"]]⟩ ⟨["k"], []⟩ "k" "k" "" "_edit").rows
        = [[Value.str "a"]] ∧
    step1 indeedStandard ⟨["project_id"], [[Value.str "P1"]]⟩ ⟨["order_id"], []⟩
        = leftMerge ⟨["project_id"], [[Value.str "P1"]]⟩ ⟨["order_id"], []⟩
            "project_id" "order_id" "_xtm" "_tos" :=
  ⟨((spec2_C2 ⟨["k"], [[Value.str "a"]]⟩ ⟨["k"], []⟩ "k" "k" "" "_edit").2.2.1
      (by decide)).trans (by decide),
   (spec2_C2 ⟨["k"], [[Value.str "a"]]⟩ ⟨["k"], []⟩ "k" "k" "" "_edit").2.2.2.2.2
      indeedStandard ⟨["project_id"], [[Value.str "P1"]]⟩ ⟨["order_id"], []⟩
      "Project ID" "order_id" "project_id" "order_id" rfl (by decide) (by decide)
      (by decide) (by decide)⟩

theorem step2_eq (cfg : IndeedConfig) (acc editN : DataFrame) (xk ek : String)
    (hjoin : cfg.join_xtm_edit = some (xk, ek)) :
    step2 cfg acc editN =
      (if truthy (find_column_fuzzy acc (preKey xk)) && truthy (find_column_fuzzy editN (preKey ek)) then
        leftMerge acc editN ((find_column_fuzzy acc (preKey xk)).getD "")
          ((find_column_fuzzy editN (preKey ek)).getD "") "" "_edit"
      else acc) := by
  unfold step2
  rw [hjoin]

/-- C7.  In each join step of `merge_indeed_files`, when either the
primary-side or the secondary-side key column fails to resolve, the join
is skipped and the accumulated table is returned unchanged (so all
columns of that secondary table stay absent downstream). -/
theorem spec2_C7 (cfg : IndeedConfig) (xtmN tosN acc editN : DataFrame) (xk tk xk2 ek : String) :
    (cfg.join_xtm_tos = some (xk, tk) →
      (find_column_fuzzy xtmN (preKey xk) = none ∨ find_column_fuzzy tosN (preKey tk) = none) →
      step1 cfg xtmN tosN = xtmN)
    ∧ (cfg.join_xtm_edit = some (xk2, ek) →
      (find_column_fuzzy acc (preKey xk2) = none ∨ find_column_fuzzy editN (preKey ek) = none) →
      step2 cfg acc editN = acc) := by
  constructor
  · intro hjoin hnone
    rw [step1_eq cfg xtmN tosN xk tk hjoin]
    rcases hnone with h | h <;> simp [h, truthy]
  · intro hjoin hnone
    rw [step2_eq cfg acc editN xk2 ek hjoin]
    rcases hnone with h | h <;> simp [h, truthy]

theorem spec2_C7_witness :
    step1 indeedStandard ⟨["a"], []⟩ ⟨["b"], []⟩ = ⟨["a"], []⟩ ∧
    step2 indeedStandard ⟨["a"], []⟩ ⟨["b"], []⟩ = ⟨["a"], []⟩ :=
  ⟨(spec2_C7 indeedStandard ⟨["a"], []⟩ ⟨["b"], []⟩ ⟨["a"], []⟩ ⟨["b"], []⟩
      "Project ID" "order_id" "Project ID" "Project ID").1 rfl (Or.inl (by rfl)),
   (spec2_C7 indeedStandard ⟨["a"], []⟩ ⟨["b"], []⟩ ⟨["a"], []⟩ ⟨["b"], []⟩
      "Project ID" "order_id" "Project ID" "Project ID").2 rfl (Or.inl (by rfl))⟩

/-- C6, amended.  The normaliser lowercases, strips the ends, and
replaces each space character with its own underscore (so a run of k
spaces becomes k underscores, not one).  Resolution is therefore case-
and end-whitespace-insensitive and identifies single spaces with
underscores: `"Project ID"` resolves against any table containing
`"project_id"`, but not against `" PROJECT  ID "` (two internal spaces,
which normalises to `"project__id"`). -/
theorem spec2_C6 :
    (∀ (cols : List String) (rows : List (List Value)), "project_id" ∈ cols →
      (find_column_fuzzy ⟨cols, rows⟩ "Project ID").isSome = true)
    ∧ normalizeLabel "Project ID" = "project_id"
    ∧ normalizeLabel " pRoJeCt iD " = "project_id"
    ∧ normalizeLabel " PROJECT  ID " = "project__id" := by
  refine ⟨?_, rfl, rfl, rfl⟩
  intro cols rows hmem
  unfold find_column_fuzzy
  exact List.find?_isSome.mpr ⟨"project_id", hmem, by decide⟩

theorem spec2_C6_witness :
    (find_column_fuzzy ⟨["x", "project_id"], []⟩ "Project ID").isSome = true :=
  spec2_C6.1 ["x", "project_id"] [] (by decide)

/-- C8, amended.  Only the `xtm_tos` join-key pair is checked by
`validate_indeed_files`: if its XTM side (resp. TOS side) fails to
resolve, the warning list contains the corresponding "rows may not align
properly" warning; the `xtm_edit` pair is never inspected (see the
counterexample). -/
theorem spec2_C8 (xtm tos edit : DataFrame) :
    (truthy (find_column_fuzzy (normalize_column_names xtm) (preKey "Project ID")) = false →
      xtmAlignWarning "Project ID" ∈ validate_indeed_files xtm tos edit)
    ∧ (truthy (find_column_fuzzy (normalize_column_names tos) (preKey "order_id")) = false →
      tosAlignWarning "order_id" ∈ validate_indeed_files xtm tos edit) := by
  have hval : validate_indeed_files xtm tos edit
      = validateWithConfig indeedStandard xtm tos edit := rfl
  have hjoin : joinKeyWarnings indeedStandard (normalize_column_names xtm)
        (normalize_column_names tos)
      = (if !truthy (find_column_fuzzy (normalize_column_names xtm) (preKey "Project ID"))
          then [xtmAlignWarning "Project ID"] else []) ++
        (if !truthy (find_column_fuzzy (normalize_column_names tos) (preKey "order_id"))
          then [tosAlignWarning "order_id"] else []) := rfl
  constructor
  · intro h
    rw [hval]
    unfold validateWithConfig
    refine List.mem_append_right _ ?_
    rw [hjoin, h]
    simp
  · intro h
    rw [hval]
    unfold validateWithConfig
    refine List.mem_append_right _ ?_
    rw [hjoin, h]
    simp

theorem spec2_C8_witness :
    xtmAlignWarning "Project ID" ∈ validate_indeed_files ⟨[], []⟩ ⟨[], []⟩ ⟨[], []⟩ ∧
    tosAlignWarning "order_id" ∈ validate_indeed_files ⟨[], []⟩ ⟨[], []⟩ ⟨[], []⟩ :=
  ⟨(spec2_C8 ⟨[], []⟩ ⟨[], []⟩ ⟨[], []⟩).1 rfl, (spec2_C8 ⟨[], []⟩ ⟨[], []⟩ ⟨[], []⟩).2 rfl⟩

theorem mem_eraseIdx_of_ne (l : List α) (i : Nat) (a : α) (ha : a ∈ l)
    (h : l[i]? ≠ some a) : a ∈ l.eraseIdx i := by
  induction l generalizing i with
  | nil => cases ha
  | cons x t ih =>
    cases i with
    | zero =>
      simp only [List.getElem?_cons_zero, ne_eq, Option.some.injEq] at h
      rcases List.mem_cons.mp ha with rfl | hat
      · exact absurd rfl h
      · simpa using hat
    | succ n =>
      rw [List.eraseIdx_cons_succ]
      rcases List.mem_cons.mp ha with rfl | hat
      · exact List.mem_cons_self _ _
      · exact List.mem_cons_of_mem _ (ih n hat (by simpa using h))

theorem mem_rightColsAfterDrop (right : DataFrame) (rc c : String) (dropR : Bool)
    (hc : c ∈ right.cols) (hne : c ≠ rc) : c ∈ rightColsAfterDrop right rc dropR := by
  unfold rightColsAfterDrop
  cases dropR with
  | false => simpa using hc
  | true =>
    simp only [if_pos]
    cases hidx : right.cols.findIdx? (fun x => x == rc) with
    | none => simpa [eraseIdxO] using hc
    | some j =>
      obtain ⟨hlt, hpj, -⟩ := List.findIdx?_eq_some_iff_getElem.mp hidx
      have hj : right.cols[j]? = some rc := by
        rw [List.getElem?_eq_getElem hlt]
        exact congrArg some (by simpa using hpj)
      refine mem_eraseIdx_of_ne _ _ _ hc ?_
      rw [hj]
      simp only [ne_eq, Option.some.injEq]
      exact Ne.symm hne

/-- C9, amended.  In every join performed by `merge_indeed_files`, when
the accumulated table and the secondary table share a (non-key) column
name, both columns survive under distinct addressable names: the
accumulated side gets the left suffix and the secondary side the right
suffix.  With the suffix pairs the code passes, both sides are renamed
in the first join (`_xtm`/`_tos`), while in the second join the left
suffix is empty so the accumulated column keeps its unsuffixed name and
only the secondary column is renamed (`_edit`).  Non-colliding secondary
columns are added under their own names. -/
theorem spec2_C9 (left right : DataFrame) (lc rc sl sr : String) (c : String) :
    (lc ≠ rc → c ∈ left.cols → c ∈ right.cols →
      (c ++ sl) ∈ (leftMerge left right lc rc sl sr).cols ∧
      (c ++ sr) ∈ (leftMerge left right lc rc sl sr).cols)
    ∧ (lc = rc → left.rows ≠ [] → c ≠ rc → c ∈ left.cols → c ∈ right.cols →
      (c ++ sl) ∈ (leftMerge left right lc rc sl sr).cols ∧
      (c ++ sr) ∈ (leftMerge left right lc rc sl sr).cols)
    ∧ (lc ≠ rc → ∀ d, d ∈ right.cols → d ∉ left.cols →
      d ∈ (leftMerge left right lc rc sl sr).cols) := by
  have hcols : (leftMerge left right lc rc sl sr).cols
      = (leftColsAfterDrop left lc rc).map
          (fun x => if (rightColsAfterDrop right rc (lc == rc && !left.rows.isEmpty)).contains x
            then x ++ sl else x) ++
        (rightColsAfterDrop right rc (lc == rc && !left.rows.isEmpty)).map
          (fun x => if (leftColsAfterDrop left lc rc).contains x then x ++ sr else x) := rfl
  refine ⟨?_, ?_, ?_⟩
  · intro hne hcl hcr
    have hbeq : (lc == rc) = false := beq_eq_false_iff_ne.mpr hne
    have hl : leftColsAfterDrop left lc rc = left.cols := by
      unfold leftColsAfterDrop
      simp [hbeq]
    have hr : rightColsAfterDrop right rc (lc == rc && !left.rows.isEmpty) = right.cols := by
      unfold rightColsAfterDrop
      simp [hbeq]
    rw [hcols, hl, hr]
    constructor
    · refine List.mem_append_left _ (List.mem_map.mpr ⟨c, hcl, ?_⟩)
      simp [List.elem_eq_mem, hcr]
    · refine List.mem_append_right _ (List.mem_map.mpr ⟨c, hcr, ?_⟩)
      simp [List.elem_eq_mem, hcl]
  · intro heq hrows hne hcl hcr
    have hemp : left.rows.isEmpty = false := by
      rw [List.isEmpty_eq_false_iff_exists_mem]
      cases hx : left.rows with
      | nil => exact absurd hx hrows
      | cons a t => exact ⟨a, by simp⟩
    have hl : leftColsAfterDrop left lc rc = left.cols := by
      unfold leftColsAfterDrop
      simp [hemp]
    have hcrC : c ∈ rightColsAfterDrop right rc (lc == rc && !left.rows.isEmpty) :=
      mem_rightColsAfterDrop right rc c _ hcr hne
    rw [hcols, hl]
    constructor
    · exact List.mem_append_left _ (List.mem_map.mpr ⟨c, hcl, by simp [List.elem_eq_mem, hcrC]⟩)
    · exact List.mem_append_right _ (List.mem_map.mpr ⟨c, hcrC, by simp [List.elem_eq_mem, hcl]⟩)
  · intro hne d hdr hdl
    have hbeq : (lc == rc) = false := beq_eq_false_iff_ne.mpr hne
    have hl : leftColsAfterDrop left lc rc = left.cols := by
      unfold leftColsAfterDrop
      simp [hbeq]
    have hr : rightColsAfterDrop right rc (lc == rc && !left.rows.isEmpty) = right.cols := by
      unfold rightColsAfterDrop
      simp [hbeq]
    rw [hcols, hl, hr]
    refine List.mem_append_right _ (List.mem_map.mpr ⟨d, hdr, ?_⟩)
    simp [List.elem_eq_mem, hdl]

theorem spec2_C9_witness :
    ("foo_xtm" ∈ (leftMerge ⟨["k", "foo"], [[Value.str "a", Value.str "b"]]⟩
        ⟨["k2", "foo"], []⟩ "k" "k2" "_xtm" "_tos").cols ∧
      "foo_tos" ∈ (leftMerge ⟨["k", "foo"], [[Value.str "a", Value.str "b"]]⟩
        ⟨["k2", "foo"], []⟩ "k" "k2" "_xtm" "_tos").cols) ∧
    ("foo" ∈ (leftMerge ⟨["k", "foo"], [[Value.str "a", Value.str "b"]]⟩
        ⟨["k", "foo"], []⟩ "k" "k" "" "_edit").cols ∧
      "foo_edit" ∈ (leftMerge ⟨["k", "foo"], [[Value.str "a", Value.str "b"]]⟩
        ⟨["k", "foo"], []⟩ "k" "k" "" "_edit").cols) :=
  ⟨(spec2_C9 ⟨["k", "foo"], [[Value.str "a", Value.str "b"]]⟩ ⟨["k2", "foo"], []⟩
      "k" "k2" "_xtm" "_tos" "foo").1 (by decide) (by decide) (by decide),
   (spec2_C9 ⟨["k", "foo"], [[Value.str "a", Value.str "b"]]⟩ ⟨["k", "foo"], []⟩
      "k" "k" "" "_edit" "foo").2.1 rfl (by decide) (by decide) (by decide) (by decide)⟩

/-! ## Column-preservation infrastructure for silent degradation (C4) -/

/-- A cell that renders as "no value": the empty string or NaN. -/
def emptyish (v : Value) : Prop :=
  v = Value.str "" ∨ v = Value.empty

/-- Well-formed frame: every row has one cell per column. -/
def Wf (df : DataFrame) : Prop :=
  ∀ r ∈ df.rows, r.length = df.cols.length

theorem findIdx?_of_mem (l : List String) (c : String) (h : c ∈ l) :
    ∃ j, l.findIdx? (fun x => x == c) = some j ∧ j < l.length ∧ l[j]? = some c := by
  have hany : l.any (fun x => x == c) = true := List.any_eq_true.mpr ⟨c, h, by simp⟩
  have hsome : (l.findIdx? (fun x => x == c)).isSome = true := by
    rw [List.findIdx?_isSome]
    exact hany
  obtain ⟨j, hj⟩ := Option.isSome_iff_exists.mp hsome
  obtain ⟨hlt, hpj, -⟩ := List.findIdx?_eq_some_iff_getElem.mp hj
  refine ⟨j, hj, hlt, ?_⟩
  rw [List.getElem?_eq_getElem hlt]
  exact congrArg some (by simpa using hpj)

theorem findIdx?_getElem_eq (l : List String) (c : String) (j : Nat)
    (h : l.findIdx? (fun x => x == c) = some j) : j < l.length ∧ l[j]? = some c := by
  obtain ⟨hlt, hpj, -⟩ := List.findIdx?_eq_some_iff_getElem.mp h
  refine ⟨hlt, ?_⟩
  rw [List.getElem?_eq_getElem hlt]
  exact congrArg some (by simpa using hpj)

theorem wf_nil : Wf ⟨[], []⟩ := by
  intro r hr
  cases hr

theorem wf_setColValues (df : DataFrame) (c : String) (vs : List Value) (hwf : Wf df) :
    Wf (df.setColValues c vs) := by
  unfold DataFrame.setColValues
  cases hidx : df.cols.findIdx? (fun x => x == c) with
  | some j =>
    intro r hr
    simp only [List.mem_map] at hr
    obtain ⟨p, hp, rfl⟩ := hr
    have hp1 := (List.of_mem_zip hp).1
    simp [hwf p.1 hp1]
  | none =>
    intro r hr
    simp only [List.mem_map] at hr
    obtain ⟨p, hp, rfl⟩ := hr
    have hp1 := (List.of_mem_zip hp).1
    simp [hwf p.1 hp1]

theorem wf_setColScalar (df : DataFrame) (c : String) (v : Value) (hwf : Wf df) :
    Wf (df.setColScalar c v) :=
  wf_setColValues df c _ hwf

theorem wf_setColSeries (df : DataFrame) (c : String) (xs : List Value) (hwf : Wf df) :
    Wf (df.setColSeries c xs) := by
  unfold DataFrame.setColSeries
  by_cases hcond : df.rows.isEmpty && !xs.isEmpty
  · rw [if_pos hcond]
    intro r hr
    simp only [List.mem_map] at hr
    obtain ⟨v, -, rfl⟩ := hr
    simp
  · rw [if_neg hcond]
    exact wf_setColValues df c _ hwf

theorem wf_sumStep (acc : DataFrame) (c r : String) (hwf : Wf acc) : Wf (sumStep acc c r) := by
  unfold sumStep
  by_cases hc : acc.cols.contains r
  · rw [if_pos hc]
    exact wf_setColSeries acc c _ hwf
  · rw [if_neg hc]
    exact hwf

theorem wf_foldl_sumStep (refs : List String) (c : String) (acc : DataFrame) (hwf : Wf acc) :
    Wf (refs.foldl (fun a r => sumStep a c r) acc) := by
  induction refs generalizing acc with
  | nil => exact hwf
  | cons r rest ih => exact ih (sumStep acc c r) (wf_sumStep acc c r hwf)

theorem wf_applyMapping (merged df : DataFrame) (cm : String × ColMapping) (hwf : Wf df) :
    Wf (applyMapping merged df cm) := by
  obtain ⟨c, m⟩ := cm
  cases m with
  | static v => exact wf_setColScalar df c v hwf
  | direct src col =>
    show Wf (if truthy (find_column_fuzzy merged (preKey col))
        then df.setColSeries c (merged.getCol ((find_column_fuzzy merged (preKey col)).getD ""))
        else df.setColScalar c (Value.str ""))
    by_cases ht : truthy (find_column_fuzzy merged (preKey col))
    · rw [if_pos ht]
      exact wf_setColSeries df c _ hwf
    · rw [if_neg ht]
      exact wf_setColScalar df c _ hwf
  | formulaSum refs =>
    exact wf_foldl_sumStep refs c _ (wf_setColScalar df c _ hwf)

theorem wf_foldl_applyMapping (L : List (String × ColMapping)) (merged acc : DataFrame)
    (hwf : Wf acc) : Wf (L.foldl (applyMapping merged) acc) := by
  induction L generalizing acc with
  | nil => exact hwf
  | cons cm rest ih => exact ih (applyMapping merged acc cm) (wf_applyMapping merged acc cm hwf)

theorem wf_backfill (names : List String) (df : DataFrame) (hwf : Wf df) :
    Wf (backfillColumns names df) := by
  unfold backfillColumns
  induction names generalizing df with
  | nil => exact hwf
  | cons n rest ih =>
    rw [List.foldl_cons]
    by_cases hc : df.cols.contains n
    · rw [if_pos hc]
      exact ih df hwf
    · rw [if_neg hc]
      exact ih _ (wf_setColScalar df n _ hwf)

/-- The column `c` exists and all of its cells are empty strings or NaN;
the invariant kept by every later step once an unresolved direct column
was filled with empty values. -/
def goodCol (df : DataFrame) (c : String) : Prop :=
  c ∈ df.cols ∧ ∀ v ∈ df.getCol c, emptyish v

theorem findIdx?_ne_of_names (l : List String) (c c' : String) (j j' : Nat)
    (hj : l[j]? = some c) (hj' : l[j']? = some c') (hne : c' ≠ c) : j' ≠ j := by
  intro he
  rw [he, hj] at hj'
  exact hne (Option.some.inj hj').symm

theorem getD_set_ne {α : Type} (l : List α) (i j : Nat) (a d : α) (h : i ≠ j) :
    (l.set i a).getD j d = l.getD j d := by
  simp [List.getD_eq_getElem?_getD, List.getElem?_set_ne h]

theorem getD_append_left {α : Type} (l1 l2 : List α) (j : Nat) (d : α) (h : j < l1.length) :
    (l1 ++ l2).getD j d = l1.getD j d := by
  simp [List.getD_eq_getElem?_getD, List.getElem?_append_left h]

theorem getD_map_lt {α β : Type} (f : α → β) (l : List α) (j : Nat) (d : β) (h : j < l.length) :
    (l.map f).getD j d = f l[j] := by
  simp [List.getD_eq_getElem?_getD, List.getElem?_eq_getElem h]

theorem goodCol_setColValues_ne (df : DataFrame) (c c' : String) (vs : List Value)
    (hwf : Wf df) (hg : goodCol df c) (hne : c' ≠ c) :
    goodCol (df.setColValues c' vs) c := by
  obtain ⟨hmem, hcells⟩ := hg
  obtain ⟨j, hj, hjlt, hjget⟩ := findIdx?_of_mem df.cols c hmem
  have hgetCol : df.getCol c = df.rows.map (fun r => r.getD j Value.empty) := by
    unfold DataFrame.getCol
    rw [hj]
  unfold DataFrame.setColValues
  cases hidx : df.cols.findIdx? (fun x => x == c') with
  | some j' =>
    obtain ⟨hjlt', hjget'⟩ := findIdx?_getElem_eq df.cols c' j' hidx
    have hne' : j' ≠ j := findIdx?_ne_of_names df.cols c c' j j' hjget hjget' hne
    refine ⟨hmem, ?_⟩
    intro v hv
    unfold DataFrame.getCol at hv
    simp only at hv
    rw [hj] at hv
    simp only [List.map_map, List.mem_map] at hv
    obtain ⟨p, hp, rfl⟩ := hv
    have hp1 := (List.of_mem_zip hp).1
    simp only [Function.comp_apply, getD_set_ne p.1 j' j p.2 Value.empty hne']
    exact hcells _ (by rw [hgetCol]; exact List.mem_map.mpr ⟨p.1, hp1, rfl⟩)
  | none =>
    refine ⟨List.mem_append_left _ hmem, ?_⟩
    intro v hv
    unfold DataFrame.getCol at hv
    simp only [List.findIdx?_append, hj, Option.or_some, List.map_map, List.mem_map] at hv
    obtain ⟨p, hp, rfl⟩ := hv
    have hp1 := (List.of_mem_zip hp).1
    simp only [Function.comp_apply,
      getD_append_left p.1 [p.2] j Value.empty (by rw [hwf p.1 hp1]; exact hjlt)]
    exact hcells _ (by rw [hgetCol]; exact List.mem_map.mpr ⟨p.1, hp1, rfl⟩)

theorem getElem_of_getElem? {α : Type} (l : List α) (j : Nat) (a : α)
    (hlt : j < l.length) (h : l[j]? = some a) : l[j] = a := by
  rw [List.getElem?_eq_getElem hlt] at h
  exact Option.some.inj h

theorem goodCol_setColScalar_ne (df : DataFrame) (c c' : String) (v : Value)
    (hwf : Wf df) (hg : goodCol df c) (hne : c' ≠ c) :
    goodCol (df.setColScalar c' v) c :=
  goodCol_setColValues_ne df c c' _ hwf hg hne

theorem goodCol_setColSeries_ne (df : DataFrame) (c c' : String) (xs : List Value)
    (hwf : Wf df) (hg : goodCol df c) (hne : c' ≠ c) :
    goodCol (df.setColSeries c' xs) c := by
  obtain ⟨hmem, hcells⟩ := hg
  obtain ⟨j, hj, hjlt, hjget⟩ := findIdx?_of_mem df.cols c hmem
  have hbeq : (c == c') = false := beq_eq_false_iff_ne.mpr (Ne.symm hne)
  unfold DataFrame.setColSeries
  by_cases hcond : df.rows.isEmpty && !xs.isEmpty
  · rw [if_pos hcond]
    by_cases hct : df.cols.contains c'
    · simp only [if_pos hct]
      refine ⟨hmem, ?_⟩
      intro v hv
      unfold DataFrame.getCol at hv
      simp only [hj, List.map_map, List.mem_map] at hv
      obtain ⟨v0, -, rfl⟩ := hv
      simp only [Function.comp_apply]
      rw [getD_map_lt _ df.cols j Value.empty hjlt,
        getElem_of_getElem? df.cols j c hjlt hjget]
      simp [hbeq]
      exact Or.inr rfl
    · simp only [if_neg hct]
      refine ⟨List.mem_append_left _ hmem, ?_⟩
      intro v hv
      unfold DataFrame.getCol at hv
      simp only [List.findIdx?_append, hj, Option.or_some, List.map_map, List.mem_map] at hv
      obtain ⟨v0, -, rfl⟩ := hv
      have hlt2 : j < (df.cols ++ [c']).length := by
        simp only [List.length_append, List.length_cons, List.length_nil]
        omega
      have hget2 : (df.cols ++ [c'])[j]? = some c := by
        rw [List.getElem?_append_left hjlt]
        exact hjget
      simp only [Function.comp_apply]
      rw [getD_map_lt _ (df.cols ++ [c']) j Value.empty hlt2,
        getElem_of_getElem? (df.cols ++ [c']) j c hlt2 hget2]
      simp [hbeq]
      exact Or.inr rfl
  · rw [if_neg hcond]
    exact goodCol_setColValues_ne df c c' _ hwf ⟨hmem, hcells⟩ hne

theorem goodCol_sumStep_ne (acc : DataFrame) (cQ r c : String)
    (hwf : Wf acc) (hg : goodCol acc c) (hne : cQ ≠ c) :
    goodCol (sumStep acc cQ r) c := by
  unfold sumStep
  by_cases hc : acc.cols.contains r
  · rw [if_pos hc]
    exact goodCol_setColSeries_ne acc c cQ _ hwf hg hne
  · rw [if_neg hc]
    exact hg

theorem goodCol_foldl_sumStep (refs : List String) (cQ c : String) (acc : DataFrame)
    (hwf : Wf acc) (hg : goodCol acc c) (hne : cQ ≠ c) :
    goodCol (refs.foldl (fun a r => sumStep a cQ r) acc) c := by
  induction refs generalizing acc with
  | nil => exact hg
  | cons r rest ih =>
    exact ih (sumStep acc cQ r) (wf_sumStep acc cQ r hwf) (goodCol_sumStep_ne acc cQ r c hwf hg hne)

theorem goodCol_applyMapping_ne (merged df : DataFrame) (cm : String × ColMapping) (c : String)
    (hwf : Wf df) (hg : goodCol df c) (hne : cm.1 ≠ c) :
    goodCol (applyMapping merged df cm) c := by
  obtain ⟨c', m⟩ := cm
  cases m with
  | static v => exact goodCol_setColScalar_ne df c c' v hwf hg hne
  | direct src col =>
    show goodCol (if truthy (find_column_fuzzy merged (preKey col))
        then df.setColSeries c' (merged.getCol ((find_column_fuzzy merged (preKey col)).getD ""))
        else df.setColScalar c' (Value.str "")) c
    by_cases ht : truthy (find_column_fuzzy merged (preKey col))
    · rw [if_pos ht]
      exact goodCol_setColSeries_ne df c c' _ hwf hg hne
    · rw [if_neg ht]
      exact goodCol_setColScalar_ne df c c' _ hwf hg hne
  | formulaSum refs =>
    exact goodCol_foldl_sumStep refs c' c _ (wf_setColScalar df c' _ hwf)
      (goodCol_setColScalar_ne df c c' _ hwf hg hne) hne

theorem goodCol_foldl_applyMapping (L : List (String × ColMapping)) (merged acc : DataFrame)
    (c : String) (hwf : Wf acc) (hg : goodCol acc c) (hnotin : c ∉ L.map Prod.fst) :
    goodCol (L.foldl (applyMapping merged) acc) c := by
  induction L generalizing acc with
  | nil => exact hg
  | cons cm rest ih =>
    rw [List.map_cons, List.mem_cons, not_or] at hnotin
    exact ih (applyMapping merged acc cm) (wf_applyMapping merged acc cm hwf)
      (goodCol_applyMapping_ne merged acc cm c hwf hg (fun he => hnotin.1 he.symm)) hnotin.2

theorem getD_append_at_length {α : Type} (l : List α) (x d : α) (n : Nat) (h : l.length = n) :
    (l ++ [x]).getD n d = x := by
  subst h
  simp [List.getD_eq_getElem?_getD, List.getElem?_append_right (Nat.le_refl _)]

theorem goodCol_start (df : DataFrame) (c : String) (hwf : Wf df) :
    goodCol (df.setColScalar c (Value.str "")) c := by
  unfold DataFrame.setColScalar DataFrame.setColValues
  cases hidx : df.cols.findIdx? (fun x => x == c) with
  | some j =>
    obtain ⟨hjlt, hjget⟩ := findIdx?_getElem_eq df.cols c j hidx
    refine ⟨List.getElem?_mem hjget, ?_⟩
    intro v hv
    unfold DataFrame.getCol at hv
    simp only [hidx, List.map_map, List.mem_map] at hv
    obtain ⟨p, hp, rfl⟩ := hv
    have hp2 : p.2 = Value.str "" := by
      have := (List.of_mem_zip hp).2
      simp only [List.mem_map] at this
      obtain ⟨-, -, h⟩ := this
      exact h.symm
    simp only [Function.comp_apply]
    by_cases hlen : j < p.1.length
    · rw [List.getD_eq_getElem?_getD, List.getElem?_set_self hlen]
      rw [hp2]
      exact Or.inl rfl
    · rw [List.set_eq_of_length_le (Nat.le_of_not_lt hlen), List.getD_eq_getElem?_getD,
        List.getElem?_eq_none (Nat.le_of_not_lt hlen)]
      exact Or.inr rfl
  | none =>
    refine ⟨List.mem_append_right _ (by simp), ?_⟩
    intro v hv
    have hfind : (df.cols ++ [c]).findIdx? (fun x => x == c) = some df.cols.length := by
      simp [List.findIdx?_append, hidx]
    unfold DataFrame.getCol at hv
    simp only [hfind, List.map_map] at hv
    obtain ⟨p, hp, h⟩ := List.mem_map.mp hv
    have hp1 := (List.of_mem_zip hp).1
    have hp2 : p.2 = Value.str "" := by
      have := (List.of_mem_zip hp).2
      simp only [List.mem_map] at this
      obtain ⟨-, -, h2⟩ := this
      exact h2.symm
    rw [← h]
    simp only [Function.comp_apply]
    rw [getD_append_at_length p.1 p.2 Value.empty df.cols.length (hwf p.1 hp1), hp2]
    exact Or.inl rfl

theorem goodCol_backfill (names : List String) (df : DataFrame) (c : String)
    (hwf : Wf df) (hg : goodCol df c) : goodCol (backfillColumns names df) c := by
  unfold backfillColumns
  induction names generalizing df with
  | nil => exact hg
  | cons n rest ih =>
    rw [List.foldl_cons]
    by_cases hct : df.cols.contains n
    · rw [if_pos hct]
      exact ih df hwf hg
    · rw [if_neg hct]
      have hne : n ≠ c := by
        intro he
        exact hct (by rw [he]; exact List.elem_eq_true_of_mem hg.1)
      exact ih _ (wf_setColScalar df n _ hwf) (goodCol_setColScalar_ne df c n _ hwf hg hne)

theorem wf_selectColumns (df : DataFrame) (names : List String) :
    Wf (selectColumns df names) := by
  intro r hr
  simp only [selectColumns, List.mem_map] at hr
  obtain ⟨row, -, rfl⟩ := hr
  simp [selectColumns]

theorem getCol_selectColumns_sub (df : DataFrame) (names : List String) (c : String)
    (hcn : c ∈ names) (hcd : c ∈ df.cols) :
    ∀ v ∈ (selectColumns df names).getCol c, v ∈ df.getCol c := by
  obtain ⟨k, hk, hklt, hkget⟩ := findIdx?_of_mem names c hcn
  obtain ⟨j, hj, hjlt, hjget⟩ := findIdx?_of_mem df.cols c hcd
  have hgc : df.getCol c = df.rows.map (fun r => r.getD j Value.empty) := by
    unfold DataFrame.getCol
    rw [hj]
  intro v hv
  unfold DataFrame.getCol selectColumns at hv
  simp only [hk, List.map_map, List.mem_map] at hv
  obtain ⟨row, hrow, rfl⟩ := hv
  simp only [Function.comp_apply]
  rw [getD_map_lt _ names k Value.empty hklt, getElem_of_getElem? names k c hklt hkget]
  simp only [DataFrame.keyAt, hj]
  rw [hgc]
  exact List.mem_map.mpr ⟨row, hrow, rfl⟩

theorem getCol_fillEmpty_all (df : DataFrame) (c : String) (hwf : Wf df) (hcd : c ∈ df.cols)
    (hcells : ∀ v ∈ df.getCol c, emptyish v) :
    ∀ v ∈ (fillEmpty df).getCol c, v = Value.str "" := by
  obtain ⟨j, hj, hjlt, hjget⟩ := findIdx?_of_mem df.cols c hcd
  have hgc : df.getCol c = df.rows.map (fun r => r.getD j Value.empty) := by
    unfold DataFrame.getCol
    rw [hj]
  intro v hv
  unfold DataFrame.getCol fillEmpty at hv
  simp only [hj, List.map_map, List.mem_map] at hv
  obtain ⟨row, hrow, rfl⟩ := hv
  have hlen : j < row.length := by
    rw [hwf row hrow]
    exact hjlt
  simp only [Function.comp_apply]
  rw [getD_map_lt _ row j Value.empty hlen]
  have hjmem : row[j] ∈ df.getCol c := by
    rw [hgc]
    refine List.mem_map.mpr ⟨row, hrow, ?_⟩
    simp [List.getD_eq_getElem?_getD, List.getElem?_eq_getElem hlen]
  rcases hcells _ hjmem with h | h <;> rw [h] <;> rfl

/-- C4.  Silent degradation of resolution misses: for every joined table
and every `direct` output column whose configured source column cannot
be resolved against it (and that is not overwritten by a later mapping
of the same name), the column of the returned table exists and holds the
empty string in every row; by construction the pipeline is total, so the
miss never raises. -/
theorem spec2_C4 (merged : DataFrame) (L1 L2 : List (String × ColMapping)) (c src scol : String)
    (hfuzzy : find_column_fuzzy merged (preKey scol) = none)
    (hnotin : c ∉ L2.map Prod.fst)
    (hfinal : c ∈ get_indeed_column_names) :
    ((projectOutput (L1 ++ (c, ColMapping.direct src scol) :: L2) merged).getCol c).all
      (fun v => v == Value.str "") = true := by
  have hwf1 : Wf (L1.foldl (applyMapping merged) ⟨[], []⟩) :=
    wf_foldl_applyMapping L1 merged _ wf_nil
  have happ : applyMapping merged (L1.foldl (applyMapping merged) ⟨[], []⟩)
        (c, ColMapping.direct src scol)
      = (L1.foldl (applyMapping merged) ⟨[], []⟩).setColScalar c (Value.str "") := by
    show (if truthy (find_column_fuzzy merged (preKey scol))
        then (L1.foldl (applyMapping merged) ⟨[], []⟩).setColSeries c
          (merged.getCol ((find_column_fuzzy merged (preKey scol)).getD ""))
        else (L1.foldl (applyMapping merged) ⟨[], []⟩).setColScalar c (Value.str "")) = _
    rw [hfuzzy]
    rfl
  have hwf2 : Wf ((L1.foldl (applyMapping merged) ⟨[], []⟩).setColScalar c (Value.str "")) :=
    wf_setColScalar _ c _ hwf1
  have hg2 : goodCol (L2.foldl (applyMapping merged)
        ((L1.foldl (applyMapping merged) ⟨[], []⟩).setColScalar c (Value.str ""))) c :=
    goodCol_foldl_applyMapping L2 merged _ c hwf2 (goodCol_start _ c hwf1) hnotin
  have hwf3 : Wf (L2.foldl (applyMapping merged)
        ((L1.foldl (applyMapping merged) ⟨[], []⟩).setColScalar c (Value.str ""))) :=
    wf_foldl_applyMapping L2 merged _ hwf2
  have hg3 := goodCol_backfill get_indeed_column_names _ c hwf3 hg2
  have hwf4 := wf_backfill get_indeed_column_names _ hwf3
  have hrw : projectOutput (L1 ++ (c, ColMapping.direct src scol) :: L2) merged
      = fillEmpty (selectColumns (backfillColumns get_indeed_column_names
          (L2.foldl (applyMapping merged)
            ((L1.foldl (applyMapping merged) ⟨[], []⟩).setColScalar c (Value.str ""))))
          get_indeed_column_names) := by
    unfold projectOutput
    rw [List.foldl_append, List.foldl_cons, happ]
  rw [List.all_eq_true]
  intro v hv
  rw [hrw] at hv
  have hveq := getCol_fillEmpty_all
    (selectColumns (backfillColumns get_indeed_column_names
      (L2.foldl (applyMapping merged)
        ((L1.foldl (applyMapping merged) ⟨[], []⟩).setColScalar c (Value.str ""))))
      get_indeed_column_names) c
    (wf_selectColumns _ _) hfinal
    (fun v hv2 => hg3.2 v (getCol_selectColumns_sub _ get_indeed_column_names c hfinal hg3.1 v hv2))
    v hv
  rw [hveq]
  rfl

theorem spec2_C4_witness :
    ((projectOutput ([("B_Project_ID", ColMapping.direct "XTM" "Project ID")]
        ++ ("L_Tags", ColMapping.direct "TOS" "tags") :: [])
        ⟨["project_id"], [[Value.str "P1"]]⟩).getCol "L_Tags").all
      (fun v => v == Value.str "") = true :=
  spec2_C4 ⟨["project_id"], [[Value.str "P1"]]⟩
    [("B_Project_ID", ColMapping.direct "XTM" "Project ID")] []
    "L_Tags" "TOS" "tags" (by rfl) (by simp) (by decide)
